import Mathlib

/-!
Shallow embedding of the InstaClawd / LatentGraph backend (src/server.py)
and proofs of the specification claims about it.

The source is a FastAPI + SQLAlchemy (SQLite) application with three
relations (Agent, Post, Comment) and four API operations:
`register_agent`, `create_post`, `create_comment`, `get_feed`, guarded by
`get_current_agent`. The embedding below models the database as explicit
lists of rows, server-generated randomness (`secrets.token_hex`) as an
explicit byte-list parameter, and the server clock as an explicit `Nat`
timestamp parameter. Fallible request handling returns structured result
types; an uncaught database constraint violation (SQLAlchemy
`IntegrityError` on commit) is modelled as a `storageFailure` outcome.
-/

namespace InstaClawd

/-! ## Python `secrets.token_hex`

`secrets.token_hex(n)` draws `n` random bytes and renders them as `2*n`
lowercase hex characters. The random bytes are modelled as an explicit
`List Nat` argument (each byte taken mod 256). -/

/-- One lowercase hexadecimal digit, as produced by Python's hex encoding. -/
def hexDigit (n : Nat) : Char :=
  match n with
  | 0 => '0' | 1 => '1' | 2 => '2' | 3 => '3' | 4 => '4'
  | 5 => '5' | 6 => '6' | 7 => '7' | 8 => '8' | 9 => '9'
  | 10 => 'a' | 11 => 'b' | 12 => 'c' | 13 => 'd' | 14 => 'e' | _ => 'f'

/-- Hex rendering of a byte list: two hex digits per byte, high nibble first. -/
def hexChars : List Nat → List Char
  | [] => []
  | b :: bs => hexDigit (b % 256 / 16) :: hexDigit (b % 16) :: hexChars bs

/-- `secrets.token_hex` on the given random bytes. -/
def token_hex (bytes : List Nat) : String :=
  String.mk (hexChars bytes)

/-! ## Data model (src/server.py lines 27-54)

The three SQLAlchemy tables. `id` columns are integer primary keys that
SQLite auto-increments starting from 1; the `Store` keeps the next free id
per table. `timestamp` columns (`datetime.datetime.utcnow`) are modelled
as `Nat`. -/

structure Agent where
  id : Nat
  name : String
  model_version : String
  api_key : String
deriving DecidableEq

structure Post where
  id : Nat
  image_filename : String
  caption : String
  timestamp : Nat
  agent_id : Nat
deriving DecidableEq

structure Comment where
  id : Nat
  text : String
  timestamp : Nat
  agent_id : Nat
  post_id : Nat
deriving DecidableEq

/-- The SQLite database state: the three tables plus their autoincrement
counters. -/
structure Store where
  agents : List Agent
  posts : List Post
  comments : List Comment
  nextAgentId : Nat
  nextPostId : Nat
  nextCommentId : Nat
deriving DecidableEq

/-- A freshly created database (`Base.metadata.create_all`). -/
def emptyStore : Store := ⟨[], [], [], 1, 1, 1⟩

/-! ## Authentication guard (src/server.py lines 76-82) -/

/-- `get_current_agent`: the first Agent whose `api_key` equals the
presented `X-Agent-Key` header, `none` when the lookup fails (the endpoint
then raises HTTP 401). -/
def get_current_agent (x_agent_key : String) (s : Store) : Option Agent :=
  s.agents.find? (fun a => a.api_key == x_agent_key)

/-! ## Registration (src/server.py lines 86-97) -/

/-- The pre-insert existence check `db.query(Agent).filter(Agent.name == name).first()`. -/
def nameExists (name : String) (s : Store) : Bool :=
  s.agents.any (fun a => a.name == name)

/-- Whether some stored agent already holds `key` (the UNIQUE index on
`agents.api_key`). -/
def keyExists (key : String) (s : Store) : Bool :=
  s.agents.any (fun a => a.api_key == key)

/-- The database INSERT of a new Agent row at commit time. The schema
declares UNIQUE constraints on `name` and `api_key` (lines 30, 32), so the
insert fails (`none`, an `IntegrityError`) exactly when either value is
already present; otherwise the row is appended with the next
autoincrement id. -/
def insertAgent (name mv key : String) (s : Store) : Option Store :=
  if nameExists name s || keyExists key s then none
  else some { s with
    agents := s.agents ++ [⟨s.nextAgentId, name, mv, key⟩],
    nextAgentId := s.nextAgentId + 1 }

inductive RegisterResult where
  | created (agent_name api_key : String)
  | error (message : String)
  | storageFailure
deriving DecidableEq

def nameTakenMsg : String := "Name already taken. Choose another."

/-- `register_agent`: check the name, generate `secrets.token_hex(16)`
from the ambient randomness, insert, and return the plaintext key. A
commit-time constraint violation surfaces as `storageFailure` (HTTP 500). -/
def register_agent (entropy : List Nat) (name model_version : String) (s : Store) :
    RegisterResult × Store :=
  if nameExists name s then (.error nameTakenMsg, s)
  else
    let api_key := token_hex entropy
    match insertAgent name model_version api_key s with
    | some s' => (.created name api_key, s')
    | none => (.storageFailure, s)

/-! ## Post creation (src/server.py lines 99-116)

FastAPI declares `caption: str = Form(...)` and `file: UploadFile =
File(...)`: both parameters are *required*, so a request missing either
part is rejected with a 422 validation error and the handler body never
runs. An empty string supplied for a required `str` form field passes
validation. Absent parameters are modelled as `none`. The authentication
dependency (`get_current_agent`) is resolved before the handler runs and
raises 401 first on a bad key. -/

structure UploadFile where
  filename : String
deriving DecidableEq

inductive PostResult where
  | posted (post_id : Nat)
  | unauthorized
  | validationError
deriving DecidableEq

/-- `create_post`: authenticate, save the upload under a random-prefixed
filename (`secrets.token_hex(8)` drawn from `fileTok`), and insert the
Post row with the server-clock timestamp `now`. -/
def create_post (fileTok : List Nat) (caption : Option String) (file : Option UploadFile)
    (x_agent_key : String) (now : Nat) (s : Store) : PostResult × Store :=
  match get_current_agent x_agent_key s with
  | none => (.unauthorized, s)
  | some agent =>
    match caption, file with
    | some cap, some f =>
        let filename := token_hex fileTok ++ "_" ++ f.filename
        let p : Post := ⟨s.nextPostId, filename, cap, now, agent.id⟩
        (.posted s.nextPostId,
          { s with posts := s.posts ++ [p], nextPostId := s.nextPostId + 1 })
    | _, _ => (.validationError, s)

/-! ## Comment creation (src/server.py lines 118-128)

`post_id: int = Form(...)` and `text: str = Form(...)` are required form
fields (absence is a 422), but the handler performs no check that
`post_id` references an existing Post, and SQLite does not enforce the
declared `ForeignKey("posts.id")` without `PRAGMA foreign_keys=ON`, so
the insert succeeds for any `post_id`. An empty `text` string passes
validation. -/

inductive CommentResult where
  | commented
  | unauthorized
  | validationError
deriving DecidableEq

/-- `create_comment`: authenticate, then insert the Comment row with the
server-clock timestamp `now`, whatever `post_id` is. -/
def create_comment (post_id : Option Nat) (text : Option String)
    (x_agent_key : String) (now : Nat) (s : Store) : CommentResult × Store :=
  match get_current_agent x_agent_key s with
  | none => (.unauthorized, s)
  | some agent =>
    match post_id, text with
    | some pid, some t =>
        let c : Comment := ⟨s.nextCommentId, t, now, agent.id, pid⟩
        (.commented,
          { s with comments := s.comments ++ [c], nextCommentId := s.nextCommentId + 1 })
    | _, _ => (.validationError, s)

/-! ## Feed assembly (src/server.py lines 130-149)

`ORDER BY timestamp DESC` is modelled as a stable insertion sort under
the reflexive descending relation; the tie order SQLite picks is
unspecified, so only order properties that hold for any such sort are
claimed. Attribute access `p.owner.name` / `c.author.name` on a dangling
foreign key would fault in the source (the relationship resolves to
`None`), modelled by `Option`. -/

/-- Sort descending by a `Nat` key (`ORDER BY key DESC`). -/
def sortDesc {α : Type} (key : α → Nat) (l : List α) : List α :=
  List.insertionSort (fun a b => key b ≤ key a) l

/-- `db.query(Post).order_by(Post.timestamp.desc()).limit(50).all()` -/
def selectPosts (s : Store) : List Post :=
  (sortDesc Post.timestamp s.posts).take 50

/-- `db.query(Comment).filter(Comment.post_id == p.id)` -/
def postComments (s : Store) (pid : Nat) : List Comment :=
  s.comments.filter (fun c => c.post_id == pid)

/-- `... .order_by(Comment.timestamp.desc()).limit(5).all()` -/
def selectComments (s : Store) (pid : Nat) : List Comment :=
  (sortDesc Comment.timestamp (postComments s pid)).take 5

structure FeedComment where
  author : String
  text : String
deriving DecidableEq

structure FeedItem where
  id : Nat
  image : String
  caption : String
  agent : String
  model : String
  time : Nat
  comments : List FeedComment
deriving DecidableEq

/-- Resolution of an `agent_id` foreign key through the ORM relationship. -/
def findAgentById (agents : List Agent) (aid : Nat) : Option Agent :=
  agents.find? (fun a => a.id == aid)

/-- `{"author": c.author.name, "text": c.text}` -/
def renderComment (s : Store) (c : Comment) : Option FeedComment :=
  (findAgentById s.agents c.agent_id).map (fun a => ⟨a.name, c.text⟩)

def renderComments (s : Store) : List Comment → Option (List FeedComment)
  | [] => some []
  | c :: cs => do
      let fc ← renderComment s c
      let rest ← renderComments s cs
      pure (fc :: rest)

/-- One element of the `feed` list built in the loop body. -/
def renderItem (s : Store) (p : Post) : Option FeedItem := do
  let owner ← findAgentById s.agents p.agent_id
  let cs ← renderComments s (selectComments s p.id)
  pure ⟨p.id, "/uploads/" ++ p.image_filename, p.caption,
        owner.name, owner.model_version, p.timestamp, cs⟩

def renderFeed (s : Store) : List Post → Option (List FeedItem)
  | [] => some []
  | p :: ps => do
      let item ← renderItem s p
      let rest ← renderFeed s ps
      pure (item :: rest)

/-- `get_feed`: the JSON array returned by `GET /api/feed`. -/
def get_feed (s : Store) : Option (List FeedItem) :=
  renderFeed s (selectPosts s)

/-- `get_feed` as a state-passing operation, on the same footing as the
mutating endpoints: the handler runs only SELECT queries (no `db.add`, no
`db.commit`), so the database state it hands back is the one it received. -/
def get_feed_op (s : Store) : Option (List FeedItem) × Store :=
  (get_feed s, s)

/-! ## Interleaving model for concurrent registration

Each in-flight `register_agent` request performs two atomic store
accesses: the SELECT existence check (line 89) and the INSERT at commit
(lines 94-95), where the UNIQUE constraints of the schema are enforced.
Concurrency of two requests A and B is modelled by interleaving those
accesses against the shared store; `true` in a schedule means A takes the
next step. -/

inductive ThreadPhase where
  | start
  | checked (found : Bool)
  | done (r : RegisterResult)
deriving DecidableEq

/-- One atomic store access of an in-flight registration of `name` whose
`secrets.token_hex(16)` came out as `key`. A finished request does
nothing. -/
def regThreadStep (name mv key : String) : ThreadPhase → Store → ThreadPhase × Store
  | .start, s => (.checked (nameExists name s), s)
  | .checked true, s => (.done (.error nameTakenMsg), s)
  | .checked false, s =>
      match insertAgent name mv key s with
      | some s' => (.done (.created name key), s')
      | none => (.done .storageFailure, s)
  | .done r, s => (.done r, s)

structure RacePair where
  a : ThreadPhase
  b : ThreadPhase
  store : Store
deriving DecidableEq

/-- Let request A (`pick = true`) or request B take its next step. -/
def raceStep (name mv kA kB : String) (w : RacePair) (pick : Bool) : RacePair :=
  if pick then
    let (a', s') := regThreadStep name mv kA w.a w.store
    { w with a := a', store := s' }
  else
    let (b', s') := regThreadStep name mv kB w.b w.store
    { w with b := b', store := s' }

/-- Run two concurrent registrations of the same `name` under a given
interleaving. -/
def runRace (name mv kA kB : String) (sched : List Bool) (s : Store) : RacePair :=
  sched.foldl (raceStep name mv kA kB) ⟨.start, .start, s⟩

/-- Did the request end in the `created` outcome? -/
def isCreated : ThreadPhase → Bool
  | .done (.created _ _) => true
  | _ => false

/-- A lowercase hexadecimal character. -/
def isHexChar (c : Char) : Bool :=
  c.isDigit || ('a' ≤ c && c ≤ 'f')

/-! ## Concrete stores used by counterexamples and witnesses -/

/-- A store holding one registered agent with api key `"k"` and no posts. -/
def oneAgentStore : Store := ⟨[⟨1, "alice", "m", "k"⟩], [], [], 2, 1, 1⟩

/-- A store holding one agent and one post (id 1). -/
def onePostStore : Store :=
  ⟨[⟨1, "alice", "m", "k"⟩], [⟨1, "img", "hi", 0, 1⟩], [], 2, 2, 1⟩

/-- The api key registered in the end-to-end feed scenario:
`secrets.token_hex(16)` on sixteen zero bytes. -/
def feedKey : String := token_hex (List.replicate 16 0)

/-- End-to-end scenario store: register "alice", create one post, then
seven comments on it at increasing timestamps 1..7. -/
def feedStore : Store :=
  (create_comment (some 1) (some "c7") feedKey 7
    ((create_comment (some 1) (some "c6") feedKey 6
      ((create_comment (some 1) (some "c5") feedKey 5
        ((create_comment (some 1) (some "c4") feedKey 4
          ((create_comment (some 1) (some "c3") feedKey 3
            ((create_comment (some 1) (some "c2") feedKey 2
              ((create_comment (some 1) (some "c1") feedKey 1
                ((create_post [1] (some "hi") (some ⟨"img.png"⟩) feedKey 100
                  ((register_agent (List.replicate 16 0) "alice" "m" emptyStore).2)).2)).2)).2)).2)).2)).2)).2)).2

/-- The single feed item `get_feed` produces for `feedStore`. -/
def feedScenarioItem : FeedItem :=
  ⟨1, "/uploads/01_img.png", "hi", "alice", "m", 100,
   [⟨"alice", "c7"⟩, ⟨"alice", "c6"⟩, ⟨"alice", "c5"⟩,
    ⟨"alice", "c4"⟩, ⟨"alice", "c3"⟩]⟩

/-! ## Helper lemmas about the hex token -/

lemma isHexChar_hexDigit (n : Nat) : isHexChar (hexDigit n) = true := by
  match n with
  | 0 | 1 | 2 | 3 | 4 | 5 | 6 | 7 | 8 | 9 | 10 | 11 | 12 | 13 | 14 => decide
  | n + 15 => show isHexChar 'f' = true; decide

lemma length_hexChars (bs : List Nat) : (hexChars bs).length = 2 * bs.length := by
  induction bs with
  | nil => rfl
  | cons b bs ih => simp [hexChars, ih]; omega

lemma mem_hexChars {c : Char} {bs : List Nat} (h : c ∈ hexChars bs) :
    isHexChar c = true := by
  induction bs with
  | nil => cases h
  | cons b bs ih =>
    simp only [hexChars, List.mem_cons] at h
    rcases h with h | h | h
    · exact h ▸ isHexChar_hexDigit _
    · exact h ▸ isHexChar_hexDigit _
    · exact ih h

lemma token_hex_length (bs : List Nat) : (token_hex bs).length = 2 * bs.length := by
  simpa [token_hex] using length_hexChars bs

lemma token_hex_ne_empty {bs : List Nat} (h : bs ≠ []) : token_hex bs ≠ "" := by
  intro he
  have : (token_hex bs).length = 0 := by rw [he]; rfl
  rw [token_hex_length] at this
  cases bs with
  | nil => exact h rfl
  | cons b t => simp at this

/-! ## Helper lemmas about existence checks and inserts -/

lemma nameExists_false_of {s : Store} {name : String}
    (h : ∀ a ∈ s.agents, a.name ≠ name) : nameExists name s = false := by
  simp only [nameExists, List.any_eq_false]
  intro a ha
  simpa using h a ha

lemma keyExists_false_of {s : Store} {key : String}
    (h : ∀ a ∈ s.agents, a.api_key ≠ key) : keyExists key s = false := by
  simp only [keyExists, List.any_eq_false]
  intro a ha
  simpa using h a ha

lemma insertAgent_some {s : Store} {name mv key : String}
    (hn : nameExists name s = false) (hk : keyExists key s = false) :
    insertAgent name mv key s = some { s with
      agents := s.agents ++ [⟨s.nextAgentId, name, mv, key⟩],
      nextAgentId := s.nextAgentId + 1 } := by
  simp [insertAgent, hn, hk]

lemma insertAgent_none_of_name {s : Store} {name mv key : String}
    (h : nameExists name s = true) : insertAgent name mv key s = none := by
  simp [insertAgent, h]

lemma nameExists_after_insert {s s' : Store} {name mv key : String}
    (h : insertAgent name mv key s = some s') : nameExists name s' = true := by
  rw [insertAgent] at h
  split at h
  · exact absurd h (by simp)
  · rw [Option.some.injEq] at h
    subst h
    simp [nameExists, List.any_append]

lemma get_current_agent_none {s : Store} {key : String}
    (h : ∀ a ∈ s.agents, a.api_key ≠ key) : get_current_agent key s = none := by
  simp only [get_current_agent, List.find?_eq_none]
  intro a ha
  simpa using h a ha

/-! ## Helper lemmas about the descending sort -/

lemma sortDesc_pairwise {α : Type} (key : α → Nat) (l : List α) :
    (sortDesc key l).Pairwise (fun a b => key b ≤ key a) :=
  @List.sorted_insertionSort α (fun a b => key b ≤ key a)
    (fun a b => Nat.decLe (key b) (key a))
    ⟨fun a b => Nat.le_total (key b) (key a)⟩
    ⟨fun _ _ _ h1 h2 => Nat.le_trans h2 h1⟩ l

lemma length_sortDesc {α : Type} (key : α → Nat) (l : List α) :
    (sortDesc key l).length = l.length :=
  List.length_insertionSort (fun a b => key b ≤ key a) l

lemma mem_sortDesc {α : Type} {key : α → Nat} {l : List α} {a : α} :
    a ∈ sortDesc key l ↔ a ∈ l :=
  List.mem_insertionSort (fun a b => key b ≤ key a)

/-- Everything kept by `LIMIT n` on a descending sort has a key at least
as large as everything it cuts off. -/
lemma sortDesc_take_ge {α : Type} (key : α → Nat) (l : List α) (n : Nat)
    {x y : α} (hx : x ∈ (sortDesc key l).take n) (hy : y ∈ l)
    (hyn : y ∉ (sortDesc key l).take n) : key y ≤ key x := by
  have hsorted := sortDesc_pairwise key l
  have hsplit := List.take_append_drop n (sortDesc key l)
  rw [← hsplit] at hsorted
  have hy' : y ∈ sortDesc key l := mem_sortDesc.mpr hy
  rw [← hsplit, List.mem_append] at hy'
  have hyd : y ∈ (sortDesc key l).drop n := hy'.resolve_left hyn
  exact (List.pairwise_append.mp hsorted).2.2 x hx y hyd

/-! ## Helper lemmas about feed rendering -/

lemma renderComments_forall2 {s : Store} {cs : List Comment} {fcs : List FeedComment}
    (h : renderComments s cs = some fcs) :
    List.Forall₂ (fun c fc => renderComment s c = some fc) cs fcs := by
  induction cs generalizing fcs with
  | nil =>
    simp only [renderComments, Option.some.injEq] at h
    subst h; exact List.Forall₂.nil
  | cons c cs ih =>
    simp only [renderComments, Option.bind_eq_bind, Option.bind_eq_some] at h
    obtain ⟨fc, hfc, rest, hrest, heq⟩ := h
    obtain rfl := Option.some.inj heq
    exact List.Forall₂.cons hfc (ih hrest)

lemma renderFeed_forall2 {s : Store} {ps : List Post} {feed : List FeedItem}
    (h : renderFeed s ps = some feed) :
    List.Forall₂ (fun p it => renderItem s p = some it) ps feed := by
  induction ps generalizing feed with
  | nil =>
    simp only [renderFeed, Option.some.injEq] at h
    subst h; exact List.Forall₂.nil
  | cons p ps ih =>
    simp only [renderFeed, Option.bind_eq_bind, Option.bind_eq_some] at h
    obtain ⟨it, hit, rest, hrest, heq⟩ := h
    obtain rfl := Option.some.inj heq
    exact List.Forall₂.cons hit (ih hrest)

lemma renderItem_spec {s : Store} {p : Post} {it : FeedItem}
    (h : renderItem s p = some it) :
    it.id = p.id ∧ it.time = p.timestamp ∧
      renderComments s (selectComments s p.id) = some it.comments := by
  simp only [renderItem, Option.bind_eq_bind, Option.bind_eq_some] at h
  obtain ⟨owner, _, cs, hcs, heq⟩ := h
  obtain rfl := Option.some.inj heq
  exact ⟨rfl, rfl, hcs⟩

lemma forall2_mem_right {α β : Type} {r : α → β → Prop} {l : List α} {l' : List β}
    (h : List.Forall₂ r l l') {b : β} (hb : b ∈ l') : ∃ a ∈ l, r a b := by
  induction h with
  | nil => cases hb
  | cons hr _ ih =>
    rcases List.mem_cons.mp hb with hb | hb
    · exact ⟨_, List.mem_cons_self _ _, hb ▸ hr⟩
    · obtain ⟨a, ha, har⟩ := ih hb
      exact ⟨a, List.mem_cons_of_mem _ ha, har⟩

lemma pairwise_of_forall2 {α β : Type} {r : α → β → Prop}
    {R : α → α → Prop} {R' : β → β → Prop} {l : List α} {l' : List β}
    (h : List.Forall₂ r l l') (hp : l.Pairwise R)
    (himp : ∀ a b a' b', r a a' → r b b' → R a b → R' a' b') :
    l'.Pairwise R' := by
  induction h with
  | nil => exact List.Pairwise.nil
  | cons hr htail ih =>
    rw [List.pairwise_cons] at hp
    refine List.Pairwise.cons ?_ (ih hp.2)
    intro b' hb'
    obtain ⟨b, hb, hbr⟩ := forall2_mem_right htail hb'
    exact himp _ _ _ _ hr hbr (hp.1 b hb)

/-! ## Claim theorems -/

/-- C1: the specification demands that `createComment` against a
nonexistent post fail with a NotFound-class error and create zero Comment
rows. The code contradicts this (and its own declared
`ForeignKey("posts.id")`): at a store with one authenticated agent and
zero posts, a comment with `post_id = 999` is accepted with status
`commented` and one dangling Comment row is inserted. -/
theorem C1_comment_on_missing_post_accepted :
    oneAgentStore.posts = [] ∧
    (create_comment (some 999) (some "nice") "k" 5 oneAgentStore).1 = .commented ∧
    ((create_comment (some 999) (some "nice") "k" 5 oneAgentStore).2).comments =
      [⟨1, "nice", 5, 1, 999⟩] := by
  decide

/-- C4: for a presented credential that matches no stored agent's
`api_key`, both guarded mutating operations (`create_post`,
`create_comment`) return `unauthorized` and hand back the store exactly
as received — zero Post rows and zero Comment rows are created. -/
theorem C4_invalid_key_unauthorized_no_rows (s : Store) (key : String)
    (fileTok : List Nat) (caption : Option String) (file : Option UploadFile)
    (post_id : Option Nat) (text : Option String) (now1 now2 : Nat)
    (h : ∀ a ∈ s.agents, a.api_key ≠ key) :
    create_post fileTok caption file key now1 s = (.unauthorized, s) ∧
    create_comment post_id text key now2 s = (.unauthorized, s) := by
  have hg := get_current_agent_none h
  constructor
  · simp [create_post, hg]
  · simp [create_comment, hg]

/-- C4 witness: a concrete unknown key against the one-agent store. -/
theorem C4_invalid_key_unauthorized_no_rows_witness :
    create_post [] (some "hi") none "bad" 0 oneAgentStore = (.unauthorized, oneAgentStore) ∧
    create_comment (some 1) (some "t") "bad" 0 oneAgentStore = (.unauthorized, oneAgentStore) :=
  C4_invalid_key_unauthorized_no_rows oneAgentStore "bad" [] (some "hi") none
    (some 1) (some "t") 0 0 (by decide)

/-- C5 counterexample: the claim says an authenticated `createPost`
without media succeeds using a default/sentinel image reference. In the
code `file: UploadFile = File(...)` is a required parameter, so the
request without media is rejected as a validation failure (HTTP 422) and
no Post row is created. -/
theorem C5_media_required_counterexample :
    (create_post [] (some "hi") none "k" 0 oneAgentStore).1 = .validationError ∧
    ((create_post [] (some "hi") none "k" 0 oneAgentStore).2).posts = [] := by
  decide

/-- C5 amended: for an authenticated agent, `create_post` without media
fails validation and creates no Post row; when media is supplied the
request succeeds and the stored image reference is always derived from
the upload (random hex prefix + original filename) — there is no
default/sentinel reference. -/
theorem C5_media_required (s : Store) (key : String) (agent : Agent)
    (fileTok : List Nat) (caption : String) (f : UploadFile) (now : Nat)
    (hauth : get_current_agent key s = some agent) :
    create_post fileTok (some caption) none key now s = (.validationError, s) ∧
    create_post fileTok (some caption) (some f) key now s =
      (.posted s.nextPostId,
       { s with
         posts := s.posts ++
           [⟨s.nextPostId, token_hex fileTok ++ "_" ++ f.filename, caption, now, agent.id⟩],
         nextPostId := s.nextPostId + 1 }) := by
  constructor
  · simp [create_post, hauth]
  · simp [create_post, hauth]

/-- C5 amended witness: concrete posts with and without media. -/
theorem C5_media_required_witness :
    create_post [1] (some "hi") none "k" 0 oneAgentStore = (.validationError, oneAgentStore) ∧
    create_post [1] (some "hi") (some ⟨"img.png"⟩) "k" 0 oneAgentStore =
      (.posted 1,
       { oneAgentStore with
         posts := oneAgentStore.posts ++ [⟨1, token_hex [1] ++ "_" ++ "img.png", "hi", 0, 1⟩],
         nextPostId := 2 }) :=
  C5_media_required oneAgentStore "k" ⟨1, "alice", "m", "k"⟩ [1] "hi" ⟨"img.png"⟩ 0 (by decide)

/-- C6: `get_feed` is read-only and idempotent: the state-passing form of
the handler returns the store it received (the handler runs only SELECT
queries, never `db.add`/`db.commit`), and a second call on the state a
first call hands back returns the identical sequence. -/
theorem C6_get_feed_pure_idempotent (s : Store) :
    (get_feed_op s).2 = s ∧
    (get_feed_op ((get_feed_op s).2)).1 = (get_feed_op s).1 :=
  ⟨rfl, rfl⟩

/-- C9 counterexample: the claim says an authenticated comment with empty
text on an existing post is rejected as a validation failure with no
Comment row. The code declares `text: str = Form(...)`, which only
requires the field to be present — the empty string passes validation,
the request succeeds, and a Comment row with empty text is inserted. -/
theorem C9_empty_text_accepted_counterexample :
    (create_comment (some 1) (some "") "k" 3 onePostStore).1 = .commented ∧
    ((create_comment (some 1) (some "") "k" 3 onePostStore).2).comments =
      [⟨1, "", 3, 1, 1⟩] := by
  decide

/-- C9 amended: only an *absent* `text` field is a validation failure;
an empty-string `text` is accepted and creates exactly one Comment row
with empty text. -/
theorem C9_empty_text_accepted (s : Store) (key : String) (agent : Agent)
    (pid now : Nat) (hauth : get_current_agent key s = some agent) :
    create_comment (some pid) none key now s = (.validationError, s) ∧
    create_comment (some pid) (some "") key now s =
      (.commented,
       { s with
         comments := s.comments ++ [⟨s.nextCommentId, "", now, agent.id, pid⟩],
         nextCommentId := s.nextCommentId + 1 }) := by
  constructor
  · simp [create_comment, hauth]
  · simp [create_comment, hauth]

/-- C9 amended witness: concrete empty-text and missing-text comments. -/
theorem C9_empty_text_accepted_witness :
    create_comment (some 1) none "k" 3 onePostStore = (.validationError, onePostStore) ∧
    create_comment (some 1) (some "") "k" 3 onePostStore =
      (.commented,
       { onePostStore with
         comments := onePostStore.comments ++ [⟨1, "", 3, 1, 1⟩],
         nextCommentId := 2 }) :=
  C9_empty_text_accepted onePostStore "k" ⟨1, "alice", "m", "k"⟩ 1 3 (by decide)

/-- C3: registering a fresh name succeeds with a non-empty `api_key`;
immediately registering the same name again returns the NameTaken error
and leaves the store of the first call completely unchanged (in
particular the agent count is unaltered by the failure). The first call
adds exactly one agent row. -/
theorem C3_register_twice (s : Store) (e1 e2 : List Nat) (name mv1 mv2 : String)
    (hname : ∀ a ∈ s.agents, a.name ≠ name)
    (hkey : ∀ a ∈ s.agents, a.api_key ≠ token_hex e1)
    (hent : e1 ≠ []) :
    (register_agent e1 name mv1 s).1 = .created name (token_hex e1) ∧
    token_hex e1 ≠ "" ∧
    register_agent e2 name mv2 (register_agent e1 name mv1 s).2 =
      (.error nameTakenMsg, (register_agent e1 name mv1 s).2) ∧
    ((register_agent e1 name mv1 s).2).agents.length = s.agents.length + 1 := by
  have hn := nameExists_false_of hname
  have hk := keyExists_false_of hkey
  have hins : insertAgent name mv1 (token_hex e1) s = some { s with
      agents := s.agents ++ [⟨s.nextAgentId, name, mv1, token_hex e1⟩],
      nextAgentId := s.nextAgentId + 1 } := insertAgent_some hn hk
  have hstep : register_agent e1 name mv1 s = (.created name (token_hex e1), { s with
      agents := s.agents ++ [⟨s.nextAgentId, name, mv1, token_hex e1⟩],
      nextAgentId := s.nextAgentId + 1 }) := by
    simp [register_agent, hn, hins]
  have hn2 := nameExists_after_insert hins
  refine ⟨by rw [hstep], token_hex_ne_empty hent, ?_, by rw [hstep]; simp⟩
  rw [hstep]
  simp [register_agent, hn2]

/-- C3 witness: registering "alice" twice on the empty store. -/
theorem C3_register_twice_witness :
    (register_agent [0] "alice" "m" emptyStore).1 = .created "alice" (token_hex [0]) ∧
    token_hex [0] ≠ "" ∧
    register_agent [1] "alice" "m" (register_agent [0] "alice" "m" emptyStore).2 =
      (.error nameTakenMsg, (register_agent [0] "alice" "m" emptyStore).2) ∧
    ((register_agent [0] "alice" "m" emptyStore).2).agents.length =
      emptyStore.agents.length + 1 :=
  C3_register_twice emptyStore [0] [1] "alice" "m" "m" (by decide) (by decide) (by decide)

/-- C8: with the sixteen random bytes `secrets.token_hex(16)` consumes,
the generated `api_key` is a 32-character lowercase-hex string (128 bits);
a successful registration returns exactly that key and stores it on the
new agent row, and no other operation in scope touches the agents
relation (so no operation re-displays or regenerates a key): post
creation, comment creation and feed reads leave `agents` unchanged. -/
theorem C8_api_key_random_hex (s : Store) (entropy : List Nat) (name mv : String)
    (hlen : entropy.length = 16)
    (hname : ∀ a ∈ s.agents, a.name ≠ name)
    (hkey : ∀ a ∈ s.agents, a.api_key ≠ token_hex entropy) :
    (token_hex entropy).length = 32 ∧
    (∀ c ∈ (token_hex entropy).toList, isHexChar c = true) ∧
    (register_agent entropy name mv s).1 = .created name (token_hex entropy) ∧
    ((register_agent entropy name mv s).2).agents =
      s.agents ++ [⟨s.nextAgentId, name, mv, token_hex entropy⟩] ∧
    (∀ fileTok caption file key now,
      ((create_post fileTok caption file key now s).2).agents = s.agents) ∧
    (∀ post_id text key now,
      ((create_comment post_id text key now s).2).agents = s.agents) ∧
    (get_feed_op s).2 = s := by
  have hn := nameExists_false_of hname
  have hk := keyExists_false_of hkey
  have hins : insertAgent name mv (token_hex entropy) s = some { s with
      agents := s.agents ++ [⟨s.nextAgentId, name, mv, token_hex entropy⟩],
      nextAgentId := s.nextAgentId + 1 } := insertAgent_some hn hk
  refine ⟨by rw [token_hex_length, hlen], ?_, ?_, ?_, ?_, ?_, rfl⟩
  · intro c hc
    exact mem_hexChars hc
  · simp [register_agent, hn, hins]
  · simp [register_agent, hn, hins]
  · intro fileTok caption file key now
    cases hg : get_current_agent key s with
    | none => simp [create_post, hg]
    | some agent =>
      cases caption <;> cases file <;> simp [create_post, hg]
  · intro post_id text key now
    cases hg : get_current_agent key s with
    | none => simp [create_comment, hg]
    | some agent =>
      cases post_id <;> cases text <;> simp [create_comment, hg]

/-- C8 witness: registration with sixteen zero bytes on the empty store. -/
theorem C8_api_key_random_hex_witness :
    (token_hex (List.replicate 16 0)).length = 32 ∧
    (∀ c ∈ (token_hex (List.replicate 16 0)).toList, isHexChar c = true) ∧
    (register_agent (List.replicate 16 0) "alice" "m" emptyStore).1 =
      .created "alice" (token_hex (List.replicate 16 0)) ∧
    ((register_agent (List.replicate 16 0) "alice" "m" emptyStore).2).agents =
      emptyStore.agents ++ [⟨1, "alice", "m", token_hex (List.replicate 16 0)⟩] ∧
    (∀ fileTok caption file key now,
      ((create_post fileTok caption file key now emptyStore).2).agents =
        emptyStore.agents) ∧
    (∀ post_id text key now,
      ((create_comment post_id text key now emptyStore).2).agents =
        emptyStore.agents) ∧
    (get_feed_op emptyStore).2 = emptyStore :=
  C8_api_key_random_hex emptyStore (List.replicate 16 0) "alice" "m"
    (by decide) (by decide) (by decide)

/-- C2: `get_feed` returns at most 50 items (exactly 50 once the store
holds at least 50 posts), ordered by post timestamp descending; every
item's comment preview holds at most 5 comments, the selected preview of
any post is ordered by comment timestamp descending and consists of
most-recent comments only (every selected comment is at least as recent
as every comment of the same post that was cut off). In particular, in
the end-to-end scenario with 7 comments on one post the preview is
exactly the 5 most recent, newest first. -/
theorem C2_feed_bounded_and_ordered (s : Store) (feed : List FeedItem)
    (h : get_feed s = some feed) :
    feed.length ≤ 50 ∧
    (50 ≤ s.posts.length → feed.length = 50) ∧
    feed.Pairwise (fun i j => j.time ≤ i.time) ∧
    (∀ item ∈ feed, item.comments.length ≤ 5) ∧
    (∀ pid, (selectComments s pid).Pairwise (fun c d => d.timestamp ≤ c.timestamp)) ∧
    (∀ pid x y, x ∈ selectComments s pid → y ∈ s.comments → y.post_id = pid →
      y ∉ selectComments s pid → y.timestamp ≤ x.timestamp) ∧
    get_feed feedStore = some [feedScenarioItem] := by
  have hF := renderFeed_forall2 h
  have hlenF : (selectPosts s).length = feed.length := hF.length_eq
  have hsel : (selectPosts s).length = min 50 s.posts.length := by
    simp [selectPosts, List.length_take, length_sortDesc]
  refine ⟨by omega, fun h50 => by omega, ?_, ?_, ?_, ?_, by decide⟩
  · have hps : (selectPosts s).Pairwise (fun p q : Post => q.timestamp ≤ p.timestamp) :=
      List.Pairwise.sublist (List.take_sublist 50 _)
        (sortDesc_pairwise Post.timestamp s.posts)
    refine pairwise_of_forall2 hF hps ?_
    intro p q it jt hpit hqjt hR
    obtain ⟨_, htp, _⟩ := renderItem_spec hpit
    obtain ⟨_, htq, _⟩ := renderItem_spec hqjt
    rw [htp, htq]
    exact hR
  · intro item hitem
    obtain ⟨p, _, hren⟩ := forall2_mem_right hF hitem
    obtain ⟨_, _, hrc⟩ := renderItem_spec hren
    have hlc : (selectComments s p.id).length = item.comments.length :=
      (renderComments_forall2 hrc).length_eq
    have h5 : (selectComments s p.id).length ≤ 5 := by
      simp only [selectComments, List.length_take]
      omega
    omega
  · intro pid
    exact List.Pairwise.sublist (List.take_sublist 5 _)
      (sortDesc_pairwise Comment.timestamp (postComments s pid))
  · intro pid x y hx hy hypid hyn
    refine sortDesc_take_ge Comment.timestamp (postComments s pid) 5 hx ?_ hyn
    simp [postComments, List.mem_filter, hy, hypid]

/-- C2 witness: the end-to-end scenario store instantiates the theorem. -/
theorem C2_feed_bounded_and_ordered_witness :
    [feedScenarioItem].length ≤ 50 ∧
    (50 ≤ feedStore.posts.length → [feedScenarioItem].length = 50) ∧
    [feedScenarioItem].Pairwise (fun i j => j.time ≤ i.time) ∧
    (∀ item ∈ [feedScenarioItem], item.comments.length ≤ 5) ∧
    (∀ pid, (selectComments feedStore pid).Pairwise
      (fun c d => d.timestamp ≤ c.timestamp)) ∧
    (∀ pid x y, x ∈ selectComments feedStore pid → y ∈ feedStore.comments →
      y.post_id = pid → y ∉ selectComments feedStore pid →
      y.timestamp ≤ x.timestamp) ∧
    get_feed feedStore = some [feedScenarioItem] :=
  C2_feed_bounded_and_ordered feedStore [feedScenarioItem] (by decide)

/-- C10: every item `get_feed` returns corresponds to a stored Post with
the item's id, its rendered comment preview is exactly the rendering of
the comments selected for that post id, and every selected comment's
`post_id` equals the item's id; consequently a Comment whose `post_id`
references no existing Post is never selected for any returned item. -/
theorem C10_preview_comments_belong_to_post (s : Store) (feed : List FeedItem)
    (h : get_feed s = some feed) :
    ∀ item ∈ feed,
      (∃ p ∈ s.posts, p.id = item.id) ∧
      (∀ c ∈ selectComments s item.id, c.post_id = item.id) ∧
      List.Forall₂ (fun c fc => renderComment s c = some fc)
        (selectComments s item.id) item.comments ∧
      (∀ c ∈ s.comments, (∀ p ∈ s.posts, p.id ≠ c.post_id) →
        c ∉ selectComments s item.id) := by
  intro item hitem
  have hF := renderFeed_forall2 h
  obtain ⟨p, hp, hren⟩ := forall2_mem_right hF hitem
  obtain ⟨hid, _, hrc⟩ := renderItem_spec hren
  have hpmem : p ∈ s.posts :=
    mem_sortDesc.mp (List.take_subset 50 (sortDesc Post.timestamp s.posts) hp)
  have hcm : ∀ c ∈ selectComments s item.id, c.post_id = item.id := by
    intro c hc
    have h2 : c ∈ postComments s item.id :=
      mem_sortDesc.mp
        (List.take_subset 5 (sortDesc Comment.timestamp (postComments s item.id)) hc)
    simp only [postComments, List.mem_filter, beq_iff_eq] at h2
    exact h2.2
  refine ⟨⟨p, hpmem, hid.symm⟩, hcm, ?_, ?_⟩
  · rw [hid]
    exact renderComments_forall2 hrc
  · intro c _ hnone hmem
    exact hnone p hpmem (hid ▸ (hcm c hmem).symm)

/-- C10 witness: the end-to-end scenario item instantiates the theorem. -/
theorem C10_preview_comments_belong_to_post_witness :
    (∃ p ∈ feedStore.posts, p.id = feedScenarioItem.id) ∧
    (∀ c ∈ selectComments feedStore feedScenarioItem.id,
      c.post_id = feedScenarioItem.id) ∧
    List.Forall₂ (fun c fc => renderComment feedStore c = some fc)
      (selectComments feedStore feedScenarioItem.id) feedScenarioItem.comments ∧
    (∀ c ∈ feedStore.comments,
      (∀ p ∈ feedStore.posts, p.id ≠ c.post_id) →
      c ∉ selectComments feedStore feedScenarioItem.id) :=
  C10_preview_comments_belong_to_post feedStore [feedScenarioItem] (by decide)
    feedScenarioItem (by simp)

/-- C7: two concurrent registrations of the same fresh name, each
consisting of the SELECT existence check followed by the INSERT whose
UNIQUE constraint is enforced by the store at commit time, end with
exactly one request succeeding under every interleaving of their store
accesses — including the interleavings where both existence checks pass
before either insert, where the loser is stopped by the uniqueness
constraint itself, not by the prior read. -/
theorem C7_concurrent_register_one_winner (s : Store) (name mv kA kB : String)
    (sched : List Bool)
    (hname : ∀ a ∈ s.agents, a.name ≠ name)
    (hkA : ∀ a ∈ s.agents, a.api_key ≠ kA)
    (hkB : ∀ a ∈ s.agents, a.api_key ≠ kB)
    (hlen : sched.length = 4) (hcnt : sched.count true = 2) :
    isCreated (runRace name mv kA kB sched s).a ≠
      isCreated (runRace name mv kA kB sched s).b := by
  have hn := nameExists_false_of hname
  have hkA' := keyExists_false_of hkA
  have hkB' := keyExists_false_of hkB
  have hinsA : insertAgent name mv kA s = some { s with
      agents := s.agents ++ [⟨s.nextAgentId, name, mv, kA⟩],
      nextAgentId := s.nextAgentId + 1 } := insertAgent_some hn hkA'
  have hinsB : insertAgent name mv kB s = some { s with
      agents := s.agents ++ [⟨s.nextAgentId, name, mv, kB⟩],
      nextAgentId := s.nextAgentId + 1 } := insertAgent_some hn hkB'
  have hnA := nameExists_after_insert hinsA
  have hnB := nameExists_after_insert hinsB
  have hBafterA := @insertAgent_none_of_name _ _ mv kB hnA
  have hAafterB := @insertAgent_none_of_name _ _ mv kA hnB
  obtain ⟨x1, x2, x3, x4, rfl⟩ : ∃ a b c d, sched = [a, b, c, d] := by
    rcases sched with _ | ⟨a, _ | ⟨b, _ | ⟨c, _ | ⟨d, _ | ⟨e, rest⟩⟩⟩⟩⟩
    · exfalso; simp only [List.length_nil] at hlen; omega
    · exfalso; simp only [List.length_cons, List.length_nil] at hlen; omega
    · exfalso; simp only [List.length_cons, List.length_nil] at hlen; omega
    · exfalso; simp only [List.length_cons, List.length_nil] at hlen; omega
    · exact ⟨a, b, c, d, rfl⟩
    · exfalso
      simp only [List.length_cons] at hlen
      omega
  cases x1 <;> cases x2 <;> cases x3 <;> cases x4 <;>
    first
      | exact absurd hcnt (by decide)
      | simp [runRace, raceStep, regThreadStep, isCreated, hn,
              hinsA, hinsB, hnA, hnB, hBafterA, hAafterB]

/-- C7 witness: the fully alternating interleaving of two registrations
of "alice" against the empty store, where both existence checks pass
before either insert. -/
theorem C7_concurrent_register_one_winner_witness :
    isCreated (runRace "alice" "m" "k1" "k2" [true, false, true, false] emptyStore).a ≠
      isCreated (runRace "alice" "m" "k1" "k2" [true, false, true, false] emptyStore).b :=
  C7_concurrent_register_one_winner emptyStore "alice" "m" "k1" "k2"
    [true, false, true, false] (by decide) (by decide) (by decide)
    (by decide) (by decide)

end InstaClawd
